import Mathlib

/-!
Shallow embedding of the volatility trading system
(`intraday_v2.py`, `realtime_trader.py`, `multi_strategy_v2.py`).

Prices, scores and percentages are modelled as exact rationals (the Python
floats only carry small decimal constants in the claims under study);
timestamps are seconds as naturals; Python `int(...)` truncation is `pyInt`.
Network fetching (`yfinance`) is an external collaborator: bar-derived
indicator values arrive as inputs to the embedded functions.
-/

namespace VolSys

/-- Python `int(q)` on a rational: truncation toward zero. -/
def pyInt (q : ℚ) : ℤ :=
  if 0 ≤ q then q.floor else -((-q).floor)

/-- Trade direction strings `'LONG'` / `'SHORT'` of the source. -/
inductive Direction where
  | LONG
  | SHORT
  deriving DecidableEq, Repr

/-- The `Signal` dataclass (both `intraday_v2.py` and `realtime_trader.py`);
the wall-clock `timestamp` field is external and not modelled. -/
structure Signal where
  symbol : String
  direction : Direction
  entry_price : ℚ
  confidence : ℚ
  strategy : String
  deriving DecidableEq, Repr

/-- The `Position` dataclass; `entry_time` is seconds since an arbitrary origin. -/
structure Position where
  symbol : String
  direction : Direction
  entry_price : ℚ
  quantity : ℤ
  entry_time : ℕ
  strategy : String
  stop_loss : ℚ
  take_profit : ℚ
  deriving DecidableEq, Repr

/-- One entry of the `pnl_history` ledger appended by `close_position`. -/
structure ClosedTrade where
  symbol : String
  direction : Direction
  entry_price : ℚ
  exit_price : ℚ
  quantity : ℤ
  pnl : ℚ
  reason : String
  duration : ℕ
  strategy : String
  deriving DecidableEq, Repr

/-! Section: Volatility regime classifier (`intraday_v2.py`, `MarketVolatility`) -/

/-- The four `level` strings of `calculate_market_volatility`. -/
inductive VolLevel where
  | low
  | normal
  | high
  | extreme
  deriving DecidableEq, Repr

/-- Position of a level in the ordered low < normal < high < extreme scale. -/
def riskIndex : VolLevel → ℕ
  | .low => 0
  | .normal => 1
  | .high => 2
  | .extreme => 3

/-- The breakpoint ladder of `calculate_market_volatility` (lines 106-113):
`avg_vol < 0.015 → low`, `< 0.03 → normal`, `< 0.05 → high`, else extreme. -/
def classifyVol (avg_vol : ℚ) : VolLevel :=
  if avg_vol < 0.015 then .low
  else if avg_vol < 0.03 then .normal
  else if avg_vol < 0.05 then .high
  else .extreme

/-- The `AdaptiveConfig.volatility_thresholds` table. -/
def regimeThreshold : VolLevel → ℚ
  | .low => 0.35
  | .normal => 0.45
  | .high => 0.55
  | .extreme => 0.65

/-- Stop-loss leg of the regime table (lines 116-127). -/
def regimeStopLoss : VolLevel → ℚ
  | .low => 0.003
  | .normal => 0.005
  | .high => 0.008
  | .extreme => 0.012

/-- Take-profit leg of the regime table (lines 116-127). -/
def regimeTakeProfit : VolLevel → ℚ
  | .low => 0.005
  | .normal => 0.008
  | .high => 0.012
  | .extreme => 0.018

/-- Result dictionary of `calculate_market_volatility`.  The Python dict may
lack the `'stop_loss'` / `'take_profit'` keys (the starvation fallback at
line 100 omits them), hence those fields are `Option`. -/
structure VolInfo where
  level : VolLevel
  threshold : ℚ
  avg_vol : ℚ
  avg_change : ℚ
  stop_loss : Option ℚ
  take_profit : Option ℚ
  deriving DecidableEq, Repr

/-- Source `MarketVolatility.calculate_market_volatility`, given the per-symbol
volatilities and absolute day changes collected from the data provider
(the fetch loop itself is external I/O).  If no symbol yielded data the
function falls back to the dict of line 100, which carries `'level'`,
`'threshold'`, `'avg_vol'`, `'avg_change'` and nothing else. -/
def calculateMarketVolatility (volatilities changes : List ℚ) : VolInfo :=
  if volatilities = [] then
    { level := .normal, threshold := 0.45, avg_vol := 0.02, avg_change := 0.01,
      stop_loss := none, take_profit := none }
  else
    let avg_vol := volatilities.sum / volatilities.length
    let avg_change := changes.sum / changes.length
    let level := classifyVol avg_vol
    { level := level, threshold := regimeThreshold level,
      avg_vol := avg_vol, avg_change := avg_change,
      stop_loss := some (regimeStopLoss level),
      take_profit := some (regimeTakeProfit level) }

/-! Section: Indicator snapshots

The dict returned by `TechnicalAnalyzer.get_data` (adaptive trader) and the
per-symbol dict built by `RealtimeAnalyzer.fetch_all_prices`.  Only the
fields actually read by the scorers are modelled; their numeric values are
inputs (derived upstream from bar data). -/

/-- Snapshot fields read by `TechnicalAnalyzer.analyze` (`intraday_v2.py`).
`volumeOverAvg` is the `volume_ratio` key of the source dict. -/
structure IndicatorDataA where
  symbol : String
  price : ℚ
  change_1m : ℚ
  rsi : ℚ
  macd_hist : ℚ
  volumeOverAvg : ℚ
  sma_20 : ℚ
  bb_upper : ℚ
  bb_lower : ℚ
  high_5m : ℚ
  low_5m : ℚ
  deriving DecidableEq, Repr

/-- Snapshot fields read by `RealtimeAnalyzer.analyze_symbol`
(`realtime_trader.py`); `volumeOverAvg` is the `volume_ratio` key. -/
structure IndicatorDataR where
  price : ℚ
  change_1m : ℚ
  rsi : ℚ
  macd_hist : ℚ
  volumeOverAvg : ℚ
  bb_upper : ℚ
  bb_lower : ℚ
  high_5m : ℚ
  low_5m : ℚ
  deriving DecidableEq, Repr

/-! Section: Signal scorer, adaptive variant (`TechnicalAnalyzer.analyze`)

Each scoring rule of the source is a separate block adding a fixed weight to
`scores['LONG']` or `scores['SHORT']` and possibly a tag to
`signal_details`; a rule hit is the triple of both contributions and tags. -/

/-- Contribution of one scoring rule. -/
structure RuleHit where
  long : ℚ
  short : ℚ
  tags : List String
  deriving DecidableEq, Repr

/-- Momentum rule (lines 241-246). -/
def momentumRuleA (d : IndicatorDataA) : RuleHit :=
  if d.change_1m > 0.001 then ⟨0.3, 0, ["MOM+"]⟩
  else if d.change_1m < -0.001 then ⟨0, 0.3, ["MOM-"]⟩
  else ⟨0, 0, []⟩

/-- RSI rule (lines 249-258); the mid bands add no tag. -/
def rsiRuleA (d : IndicatorDataA) : RuleHit :=
  if d.rsi < 35 then ⟨0.25, 0, ["RSI<35"]⟩
  else if d.rsi > 65 then ⟨0, 0.25, ["RSI>65"]⟩
  else if d.rsi < 45 then ⟨0.15, 0, []⟩
  else if d.rsi > 55 then ⟨0, 0.15, []⟩
  else ⟨0, 0, []⟩

/-- MACD rule (lines 261-264): always one side. -/
def macdRuleA (d : IndicatorDataA) : RuleHit :=
  if d.macd_hist > 0 then ⟨0.15, 0, []⟩ else ⟨0, 0.15, []⟩

/-- Breakout rule (lines 267-272). -/
def breakoutRuleA (d : IndicatorDataA) : RuleHit :=
  if d.price > d.high_5m then ⟨0.35, 0, ["HH"]⟩
  else if d.price < d.low_5m then ⟨0, 0.35, ["LL"]⟩
  else ⟨0, 0, []⟩

/-- Volume rule (lines 275-278). -/
def volumeRuleA (d : IndicatorDataA) : RuleHit :=
  if d.volumeOverAvg > 2 ∧ |d.change_1m| > 0.0005 then
    if d.change_1m > 0 then ⟨0.2, 0, ["VOL+"]⟩ else ⟨0, 0.2, ["VOL+"]⟩
  else ⟨0, 0, []⟩

/-- Mean-reversion rule (lines 281-285); no tag in the source. -/
def meanRevRuleA (d : IndicatorDataA) : RuleHit :=
  let deviation := if d.sma_20 > 0 then (d.price - d.sma_20) / d.sma_20 else 0
  if deviation < -0.01 then ⟨0.2, 0, []⟩
  else if deviation > 0.01 then ⟨0, 0.2, []⟩
  else ⟨0, 0, []⟩

/-- Bollinger-band rule (lines 288-291); no tag in the source. -/
def bbRuleA (d : IndicatorDataA) : RuleHit :=
  if d.price < d.bb_lower then ⟨0.2, 0, []⟩
  else if d.price > d.bb_upper then ⟨0, 0.2, []⟩
  else ⟨0, 0, []⟩

/-- The seven rule blocks of `TechnicalAnalyzer.analyze`, in source order. -/
def rulesA (d : IndicatorDataA) : List RuleHit :=
  [momentumRuleA d, rsiRuleA d, macdRuleA d, breakoutRuleA d,
   volumeRuleA d, meanRevRuleA d, bbRuleA d]

/-- Accumulated `scores['LONG']`. -/
def scoresLongA (d : IndicatorDataA) : ℚ :=
  ((rulesA d).map RuleHit.long).sum

/-- Accumulated `scores['SHORT']`. -/
def scoresShortA (d : IndicatorDataA) : ℚ :=
  ((rulesA d).map RuleHit.short).sum

/-- Accumulated `signal_details`, in evaluation order. -/
def detailsA (d : IndicatorDataA) : List String :=
  ((rulesA d).map RuleHit.tags).flatten

/-- Source `TechnicalAnalyzer.analyze` decision (lines 294-315); `threshold` is
`vol_info['threshold']`. -/
def analyzeAdaptive (d : IndicatorDataA) (threshold : ℚ) : Option Signal :=
  let L := scoresLongA d
  let S := scoresShortA d
  let total := L + S
  if total = 0 then none
  else
    let confidence := if L > S then L / total else S / total
    let direction := if L > S then Direction.LONG else Direction.SHORT
    if confidence < threshold then none
    else some
      { symbol := d.symbol
        direction := direction
        entry_price := d.price
        confidence := confidence
        strategy := if detailsA d = [] then "Mixed"
                    else String.intercalate "," ((detailsA d).take 3) }

/-! Section: Signal scorer, realtime variant (`RealtimeAnalyzer.analyze_symbol`) -/

/-- Source `RealtimeConfig.min_confidence`. -/
def minConfidenceR : ℚ := 0.55

/-- Source `RealtimeConfig.cooldown_seconds`. -/
def cooldownSecondsR : ℕ := 15

/-- Momentum rule (lines 219-224). -/
def momentumRuleR (d : IndicatorDataR) : RuleHit :=
  if d.change_1m > 0.0008 then ⟨0.35, 0, ["M+"]⟩
  else if d.change_1m < -0.0008 then ⟨0, 0.35, ["M-"]⟩
  else ⟨0, 0, []⟩

/-- RSI rule (lines 227-232): extreme bands only. -/
def rsiRuleR (d : IndicatorDataR) : RuleHit :=
  if d.rsi < 35 then ⟨0.25, 0, ["RSI<35"]⟩
  else if d.rsi > 65 then ⟨0, 0.25, ["RSI>65"]⟩
  else ⟨0, 0, []⟩

/-- MACD rule (lines 235-238). -/
def macdRuleR (d : IndicatorDataR) : RuleHit :=
  if d.macd_hist > 0 then ⟨0.15, 0, []⟩ else ⟨0, 0.15, []⟩

/-- Breakout rule (lines 241-246). -/
def breakoutRuleR (d : IndicatorDataR) : RuleHit :=
  if d.price > d.high_5m then ⟨0.4, 0, ["HH"]⟩
  else if d.price < d.low_5m then ⟨0, 0.4, ["LL"]⟩
  else ⟨0, 0, []⟩

/-- Volume rule (lines 249-252). -/
def volumeRuleR (d : IndicatorDataR) : RuleHit :=
  if d.volumeOverAvg > 2 ∧ |d.change_1m| > 0.0005 then
    if d.change_1m > 0 then ⟨0.25, 0, ["VOL+"]⟩ else ⟨0, 0.25, ["VOL+"]⟩
  else ⟨0, 0, []⟩

/-- Bollinger-band rule (lines 255-260), with tags. -/
def bbRuleR (d : IndicatorDataR) : RuleHit :=
  if d.price < d.bb_lower then ⟨0.2, 0, ["BB-L"]⟩
  else if d.price > d.bb_upper then ⟨0, 0.2, ["BB-U"]⟩
  else ⟨0, 0, []⟩

/-- The six rule blocks of `analyze_symbol`, in source order. -/
def rulesR (d : IndicatorDataR) : List RuleHit :=
  [momentumRuleR d, rsiRuleR d, macdRuleR d, breakoutRuleR d,
   volumeRuleR d, bbRuleR d]

/-- Accumulated `scores['LONG']` of the realtime scorer. -/
def scoresLongR (d : IndicatorDataR) : ℚ :=
  ((rulesR d).map RuleHit.long).sum

/-- Accumulated `scores['SHORT']` of the realtime scorer. -/
def scoresShortR (d : IndicatorDataR) : ℚ :=
  ((rulesR d).map RuleHit.short).sum

/-- Accumulated `signal_details` of the realtime scorer. -/
def detailsR (d : IndicatorDataR) : List String :=
  ((rulesR d).map RuleHit.tags).flatten

/-- Source `RealtimeAnalyzer.analyze_symbol` (lines 205-284).  `lastSignal` is the
analyzer's `last_signal_time` registry restricted to this symbol; the guard
`(now − last).seconds < cooldown_seconds` suppresses scoring entirely. -/
def analyzeRealtime (lastSignal : Option ℕ) (now : ℕ) (symbol : String)
    (d : IndicatorDataR) : Option Signal :=
  if ∃ t, lastSignal = some t ∧ now - t < cooldownSecondsR then none
  else if d.price = 0 then none
  else
    let L := scoresLongR d
    let S := scoresShortR d
    let total := L + S
    if total = 0 then none
    else
      let confidence := if L > S then L / total else S / total
      let direction := if L > S then Direction.LONG else Direction.SHORT
      if confidence < minConfidenceR then none
      else some
        { symbol := symbol
          direction := direction
          entry_price := d.price
          confidence := confidence
          strategy := String.join ((detailsR d).take 3) }

/-! Section: Adaptive trader lifecycle (`AdaptiveIntradayTrader`) -/

/-- Source `AdaptiveConfig.symbols`. -/
def symbolsA : List String :=
  ["AAPL", "MSFT", "TSLA", "NVDA", "META", "AMZN", "GOOGL", "AMD", "INTC", "COIN"]

/-- Source `AdaptiveConfig.position_size`. -/
def positionSizeA : ℚ := 0.1

/-- Source `AdaptiveConfig.max_positions`. -/
def maxPositionsA : ℕ := 5

/-- Source `AdaptiveConfig.cooldown_seconds`. -/
def cooldownSecondsA : ℕ := 30

/-- Open quantity of `AdaptiveIntradayTrader.run` (line 450):
`int(10000 * self.config.position_size / sig.entry_price)`. -/
def quantityA (entryPrice : ℚ) : ℤ :=
  pyInt (10000 * positionSizeA / entryPrice)

/-- Mutable state of `AdaptiveIntradayTrader`: `positions`, `pnl_history`
and the `last_trade_time` registry. -/
structure AdaptiveState where
  positions : List Position
  pnl_history : List ClosedTrade
  lastTradeTime : String → Option ℕ

/-- Fresh trader (`__init__`). -/
def initA : AdaptiveState :=
  { positions := [], pnl_history := [], lastTradeTime := fun _ => none }

/-- Cooldown test of `should_trade` (lines 336-338). -/
def inCooldownA (s : AdaptiveState) (now : ℕ) (symbol : String) : Bool :=
  match s.lastTradeTime symbol with
  | some t => decide (now - t < cooldownSecondsA)
  | none => false

/-- Source `AdaptiveIntradayTrader.should_trade` (lines 335-347). -/
def shouldTrade (s : AdaptiveState) (now : ℕ) (symbol : String) : Bool :=
  if inCooldownA s now symbol then false
  else if s.positions.any (fun p => p.symbol == symbol) then false
  else if maxPositionsA ≤ s.positions.length then false
  else true

/-- Position construction of `AdaptiveIntradayTrader.run` (lines 457-466);
`slPct` / `tpPct` are `vol_info['stop_loss']` / `vol_info['take_profit']`. -/
def mkPositionA (sig : Signal) (now : ℕ) (slPct tpPct : ℚ) : Position :=
  { symbol := sig.symbol
    direction := sig.direction
    entry_price := sig.entry_price
    quantity := quantityA sig.entry_price
    entry_time := now
    strategy := sig.strategy
    stop_loss := if sig.direction = .LONG then sig.entry_price * (1 - slPct)
                 else sig.entry_price * (1 + slPct)
    take_profit := if sig.direction = .LONG then sig.entry_price * (1 + tpPct)
                   else sig.entry_price * (1 - tpPct) }

/-- Ledger record built by `close_position` (both traders, identical
fields); `pnl` is `(exit − entry) × qty` for LONG, `(entry − exit) × qty`
for SHORT. -/
def mkClosedTrade (pos : Position) (reason : String) (exitPrice : ℚ)
    (now : ℕ) : ClosedTrade :=
  { symbol := pos.symbol
    direction := pos.direction
    entry_price := pos.entry_price
    exit_price := exitPrice
    quantity := pos.quantity
    pnl := if pos.direction = .LONG then (exitPrice - pos.entry_price) * (pos.quantity : ℚ)
           else (pos.entry_price - exitPrice) * (pos.quantity : ℚ)
    reason := reason
    duration := now - pos.entry_time
    strategy := pos.strategy }

/-- Source `AdaptiveIntradayTrader.close_position` (lines 376-397): append the
ledger record, drop every position with that symbol, and reset the
symbol's `last_trade_time` to the close time. -/
def closePositionA (s : AdaptiveState) (pos : Position) (reason : String)
    (exitPrice : ℚ) (now : ℕ) : AdaptiveState :=
  { positions := s.positions.filter (fun p => p.symbol ≠ pos.symbol)
    pnl_history := s.pnl_history ++ [mkClosedTrade pos reason exitPrice now]
    lastTradeTime := fun sym => if sym = pos.symbol then some now
                                else s.lastTradeTime sym }

/-- Source `AdaptiveIntradayTrader.run_scan` (lines 399-416): symbols failing
`should_trade` or without data are skipped; `datas` is the external
`get_data` provider for this cycle. -/
def runScan (s : AdaptiveState) (now : ℕ)
    (datas : String → Option IndicatorDataA) (threshold : ℚ) : List Signal :=
  symbolsA.filterMap (fun sym =>
    if shouldTrade s now sym then
      (datas sym).bind (fun d => analyzeAdaptive d threshold)
    else none)

/-- One successful open of the inner loop of `run` (lines 457-469). -/
def openOneA (s : AdaptiveState) (sig : Signal) (now : ℕ)
    (slPct tpPct : ℚ) : AdaptiveState :=
  { positions := s.positions ++ [mkPositionA sig now slPct tpPct]
    pnl_history := s.pnl_history
    lastTradeTime := fun sym => if sym = sig.symbol then some now
                                else s.lastTradeTime sym }

/-- The signal-consuming loop of `run` (lines 446-472): break on capacity,
skip quantities below 1, otherwise open. -/
def openLoop (s : AdaptiveState) (sigs : List Signal) (now : ℕ)
    (slPct tpPct : ℚ) : AdaptiveState :=
  match sigs with
  | [] => s
  | sig :: rest =>
      if maxPositionsA ≤ s.positions.length then s
      else if quantityA sig.entry_price < 1 then openLoop s rest now slPct tpPct
      else openLoop (openOneA s sig now slPct tpPct) rest now slPct tpPct

/-- One observable transition of `AdaptiveIntradayTrader`: a scan-and-open
pass of `run`, or one `close_position` call.  `hsym` states the `get_data`
contract that a returned dict's `'symbol'` key is the requested symbol. -/
inductive AdaptiveStep : AdaptiveState → AdaptiveState → Prop where
  | scan (s : AdaptiveState) (now : ℕ) (datas : String → Option IndicatorDataA)
      (threshold slPct tpPct : ℚ)
      (hsym : ∀ sym d, datas sym = some d → d.symbol = sym) :
      AdaptiveStep s (openLoop s (runScan s now datas threshold) now slPct tpPct)
  | close (s : AdaptiveState) (pos : Position) (reason : String)
      (exitPrice : ℚ) (now : ℕ) (hmem : pos ∈ s.positions) :
      AdaptiveStep s (closePositionA s pos reason exitPrice now)

/-- States reachable from a fresh `AdaptiveIntradayTrader`. -/
def ReachableA (s : AdaptiveState) : Prop :=
  Relation.ReflTransGen AdaptiveStep initA s

/-! Section: Exit checks (`check_positions` of both traders) -/

/-- Unrealized percentage P&L (lines 359-362 / 324-327). -/
def pnlPct (dir : Direction) (entry current : ℚ) : ℚ :=
  match dir with
  | .LONG => (current - entry) / entry
  | .SHORT => (entry - current) / entry

/-- The `if / elif / elif` exit ladder shared by both `check_positions`
(lines 367-372 adaptive, 329-334 realtime): take-profit, then stop-loss,
then the time ceiling (900 s adaptive, 600 s realtime). -/
def exitReason (pnl : ℚ) (stopLoss takeProfit : ℚ)
    (elapsed ceiling : ℕ) : Option String :=
  if pnl ≥ takeProfit then some "TAKE_PROFIT"
  else if pnl ≤ -stopLoss then some "STOP_LOSS"
  else if ceiling < elapsed then some "TIME_STOP"
  else none

/-- Source `AdaptiveIntradayTrader.check_positions` (lines 349-374).  Positions
without current data are skipped; the body reads `vol_info['stop_loss']`
and `vol_info['take_profit']` by key, so a regime dict lacking them raises
`KeyError`, modelled as `Except.error`. -/
def checkPositionsA (volInfo : VolInfo) (positions : List Position)
    (price : String → Option ℚ) (now : ℕ) :
    Except String (List (Position × String × ℚ)) :=
  match positions with
  | [] => .ok []
  | pos :: rest =>
      match price pos.symbol with
      | none => checkPositionsA volInfo rest price now
      | some current =>
          match volInfo.stop_loss with
          | none => .error "KeyError: stop_loss"
          | some sl =>
              match volInfo.take_profit with
              | none => .error "KeyError: take_profit"
              | some tp =>
                  match checkPositionsA volInfo rest price now with
                  | .error e => .error e
                  | .ok l =>
                      match exitReason (pnlPct pos.direction pos.entry_price current)
                          sl tp (now - pos.entry_time) 900 with
                      | some reason => .ok ((pos, reason, current) :: l)
                      | none => .ok l

/-! Section: Realtime trader lifecycle (`RealtimeTrader`) -/

/-- Source `RealtimeConfig.position_size`. -/
def positionSizeR : ℚ := 0.1

/-- Source `RealtimeConfig.max_positions`. -/
def maxPositionsR : ℕ := 5

/-- Source `RealtimeConfig.stop_loss`. -/
def stopLossR : ℚ := 0.004

/-- Source `RealtimeConfig.take_profit`. -/
def takeProfitR : ℚ := 0.006

/-- Open quantity of `RealtimeTrader.run` (line 419). -/
def quantityR (entryPrice : ℚ) : ℤ :=
  pyInt (10000 * positionSizeR / entryPrice)

/-- Mutable state of `RealtimeTrader` together with its analyzer's
`last_signal_time` registry. -/
structure RealtimeState where
  positions : List Position
  pnl_history : List ClosedTrade
  lastSignalTime : String → Option ℕ

/-- Fresh realtime trader. -/
def initR : RealtimeState :=
  { positions := [], pnl_history := [], lastSignalTime := fun _ => none }

/-- Position construction of `RealtimeTrader.run` (lines 423-434). -/
def mkPositionR (sig : Signal) (now : ℕ) : Position :=
  { symbol := sig.symbol
    direction := sig.direction
    entry_price := sig.entry_price
    quantity := quantityR sig.entry_price
    entry_time := now
    strategy := sig.strategy
    stop_loss := if sig.direction = .LONG then sig.entry_price * (1 - stopLossR)
                 else sig.entry_price * (1 + stopLossR)
    take_profit := if sig.direction = .LONG then sig.entry_price * (1 + takeProfitR)
                   else sig.entry_price * (1 - takeProfitR) }

/-- Source `RealtimeTrader.close_position` (lines 338-359): append the ledger
record and drop the symbol's positions.  Unlike the adaptive trader it
touches no cooldown registry. -/
def closePositionR (s : RealtimeState) (pos : Position) (reason : String)
    (exitPrice : ℚ) (now : ℕ) : RealtimeState :=
  { positions := s.positions.filter (fun p => p.symbol ≠ pos.symbol)
    pnl_history := s.pnl_history ++ [mkClosedTrade pos reason exitPrice now]
    lastSignalTime := s.lastSignalTime }

/-- Source `RealtimeTrader.check_positions` (lines 313-336); ceiling 600 s. -/
def checkPositionsR (positions : List Position) (price : String → Option ℚ)
    (now : ℕ) : List (Position × String × ℚ) :=
  match positions with
  | [] => []
  | pos :: rest =>
      match price pos.symbol with
      | none => checkPositionsR rest price now
      | some current =>
          match exitReason (pnlPct pos.direction pos.entry_price current)
              stopLossR takeProfitR (now - pos.entry_time) 600 with
          | some reason => (pos, reason, current) :: checkPositionsR rest price now
          | none => checkPositionsR rest price now

/-- One observable transition of `RealtimeTrader`: a signal that opens a
position (`run` lines 410-436, guarded by the per-open active-position
check of line 415 and fed by `analyze_symbol`, which recorded the signal
time in `scan_market` line 295), a signal that is generated but not
opened, or one `close_position` call. -/
inductive RealtimeStep : RealtimeState → RealtimeState → Prop where
  | openSig (s : RealtimeState) (now : ℕ) (d : IndicatorDataR) (sig : Signal)
      (hana : analyzeRealtime (s.lastSignalTime sig.symbol) now sig.symbol d = some sig)
      (hpos : s.positions.any (fun p => p.symbol == sig.symbol) = false)
      (hcap : s.positions.length < maxPositionsR)
      (hqty : 1 ≤ quantityR sig.entry_price) :
      RealtimeStep s
        { positions := s.positions ++ [mkPositionR sig now]
          pnl_history := s.pnl_history
          lastSignalTime := fun sym => if sym = sig.symbol then some now
                                       else s.lastSignalTime sym }
  | signalOnly (s : RealtimeState) (now : ℕ) (d : IndicatorDataR)
      (symbol : String) (sig : Signal)
      (hana : analyzeRealtime (s.lastSignalTime symbol) now symbol d = some sig) :
      RealtimeStep s
        { s with lastSignalTime := fun sym => if sym = symbol then some now
                                              else s.lastSignalTime sym }
  | close (s : RealtimeState) (pos : Position) (reason : String)
      (exitPrice : ℚ) (now : ℕ) (hmem : pos ∈ s.positions) :
      RealtimeStep s (closePositionR s pos reason exitPrice now)

/-- States reachable from a fresh `RealtimeTrader`. -/
def ReachableR (s : RealtimeState) : Prop :=
  Relation.ReflTransGen RealtimeStep initR s

/-! Section: Multi-strategy variant (`multi_strategy_v2.py`) -/

/-- Market-data dict fields read by the six strategies (the values are
computed upstream in `MarketData.get_data`, partly from a random IV
stand-in that the spec rules out of scope). -/
structure MSData where
  price : ℚ
  change_5d : ℚ
  change_20d : ℚ
  hv : ℚ
  iv : ℚ
  iv_rank : ℚ
  sma_20 : ℚ
  sma_50 : ℚ
  vix : ℚ
  deriving DecidableEq, Repr

/-- Source `IVRankStrategy.analyze`. -/
def ivRankStrategy (d : MSData) : String × ℚ :=
  if d.iv_rank > 65 then ("SHORT", min ((d.iv_rank - 50) / 50) 1.0)
  else if d.iv_rank < 35 then ("LONG", min ((50 - d.iv_rank) / 50) 1.0)
  else ("NEUTRAL", 0)

/-- Source `VIXMeanReversionStrategy.analyze`. -/
def vixRevStrategy (d : MSData) : String × ℚ :=
  if d.vix > 25 ∧ d.change_5d < -3 then ("LONG", 0.6)
  else if d.vix < 15 ∧ d.change_5d > 3 then ("SHORT", 0.6)
  else if d.vix > 22 then ("SHORT", 0.4)
  else if d.vix < 14 then ("LONG", 0.4)
  else ("NEUTRAL", 0)

/-- Source `IVHVSpreadStrategy.analyze`. -/
def ivhvStrategy (d : MSData) : String × ℚ :=
  if d.hv = 0 then ("NEUTRAL", 0)
  else
    let spread := (d.iv - d.hv) / d.hv
    if spread > 0.3 then ("SHORT", min (spread - 0.2) 0.8)
    else if spread < -0.2 then ("LONG", min (-spread * 0.5) 0.6)
    else ("NEUTRAL", 0)

/-- Source `MomentumStrategy.analyze`. -/
def momentumStrategy (d : MSData) : String × ℚ :=
  if d.change_5d > 3 ∧ d.change_20d > 5 ∧ d.iv_rank < 50 then ("LONG", 0.5)
  else if d.change_5d < -3 ∧ d.change_20d < -5 ∧ d.iv_rank > 50 then ("SHORT", 0.5)
  else ("NEUTRAL", 0)

/-- Source `ContrarianStrategy.analyze`. -/
def contraStrategy (d : MSData) : String × ℚ :=
  if d.change_5d < -5 ∧ d.iv_rank > 70 then ("LONG", 0.6)
  else if d.change_5d > 5 ∧ d.iv_rank < 30 then ("SHORT", 0.6)
  else ("NEUTRAL", 0)

/-- Source `TrendStrategy.analyze`. -/
def trendStrategy (d : MSData) : String × ℚ :=
  if d.price > d.sma_20 ∧ d.sma_20 > d.sma_50 ∧ d.change_5d > 0 then ("LONG", 0.5)
  else if d.price < d.sma_20 ∧ d.sma_20 < d.sma_50 ∧ d.change_5d < 0 then ("SHORT", 0.5)
  else ("NEUTRAL", 0)

/-- The strategy roster of `MultiStrategyTrader.__init__` with its weights. -/
def msVotes (d : MSData) : List ((String × ℚ) × ℚ) :=
  [(ivRankStrategy d, 1.0), (vixRevStrategy d, 0.8), (ivhvStrategy d, 0.7),
   (momentumStrategy d, 0.6), (contraStrategy d, 0.5), (trendStrategy d, 0.5)]

/-- Score accumulation of `analyze_all` (lines 276-286):
`buy_score` / `sell_score` gather `confidence × weight` per side. -/
def msScores (d : MSData) : ℚ × ℚ :=
  (msVotes d).foldl
    (fun acc v =>
      if v.1.1 = "LONG" then (acc.1 + v.1.2 * v.2, acc.2)
      else if v.1.1 = "SHORT" then (acc.1, acc.2 + v.1.2 * v.2)
      else acc)
    (0, 0)

/-- Final decision of `analyze_all` (lines 289-297): LONG only on
`buy > sell × 1.2`, SHORT only on `sell > buy × 1.2`, else NEUTRAL. -/
def msDecision (buyScore sellScore : ℚ) : String × ℚ :=
  if buyScore > sellScore * 1.2 then
    ("LONG", buyScore / max (buyScore + sellScore) 0.1)
  else if sellScore > buyScore * 1.2 then
    ("SHORT", sellScore / max (buyScore + sellScore) 0.1)
  else ("NEUTRAL", 0)

/-- One result row of `analyze_all`. -/
structure MSignalRec where
  symbol : String
  price : ℚ
  signal : String
  confidence : ℚ
  deriving DecidableEq, Repr

/-- One record of `MultiStrategyTrader.trades`. -/
structure MSTrade where
  symbol : String
  action : String
  quantity : ℤ
  price : ℚ
  confidence : ℚ
  deriving DecidableEq, Repr

/-- Order size of `MultiStrategyTrader.execute` (lines 332-333):
`int(1000000 × 0.02 × confidence / price)`. -/
def multiQuantity (price confidence : ℚ) : ℤ :=
  pyInt (1000000 * 0.02 * confidence / price)

/-- Source `MultiStrategyTrader.execute` (lines 315-358) with trading enabled;
`held` is the broker-position symbol set, and order placement is modelled
as an accepted intent (broker delivery is an external collaborator). -/
def multiExecute (held : List String) (sigs : List MSignalRec) : List MSTrade :=
  match sigs with
  | [] => []
  | sig :: rest =>
      if sig.confidence < 0.3 ∨ sig.signal = "NEUTRAL" then multiExecute held rest
      else if held.contains sig.symbol then multiExecute held rest
      else if sig.price = 0 then multiExecute held rest
      else if multiQuantity sig.price sig.confidence < 1 then multiExecute held rest
      else if sig.signal = "LONG" then
        { symbol := sig.symbol, action := "BUY",
          quantity := multiQuantity sig.price sig.confidence,
          price := sig.price, confidence := sig.confidence } :: multiExecute held rest
      else if sig.signal = "SHORT" then
        { symbol := sig.symbol, action := "SHORT",
          quantity := multiQuantity sig.price sig.confidence,
          price := sig.price, confidence := sig.confidence } :: multiExecute held rest
      else multiExecute held rest

/-! Section: Concrete instances used by witnesses and counterexamples -/

/-- Snapshot on which every LONG rule of the adaptive scorer fires. -/
def dLong : IndicatorDataA :=
  { symbol := "AAPL", price := 102, change_1m := 0.01, rsi := 30, macd_hist := 1,
    volumeOverAvg := 3, sma_20 := 102, bb_upper := 1000, bb_lower := 0,
    high_5m := 101, low_5m := 0 }

/-- The signal produced by `dLong` at threshold 0.45. -/
def sigLong : Signal :=
  { symbol := "AAPL", direction := .LONG, entry_price := 102, confidence := 1,
    strategy := "MOM+,RSI<35,HH" }

/-- Snapshot with a LONG/SHORT score tie: breakout LONG 0.35 against
MACD 0.15 + mean-reversion 0.2 SHORT. -/
def dTie : IndicatorDataA :=
  { symbol := "TSLA", price := 102, change_1m := 0, rsi := 50, macd_hist := 0,
    volumeOverAvg := 1, sma_20 := 100, bb_upper := 1000, bb_lower := 0,
    high_5m := 101, low_5m := 0 }

/-- The signal produced by `dTie` at the low-regime threshold. -/
def sigTie : Signal :=
  { symbol := "TSLA", direction := .SHORT, entry_price := 102, confidence := 1/2,
    strategy := "HH" }

/-- Snapshot whose adaptive signal has confidence exactly 0.6:
LONG 0.3 momentum + 0.15 MACD + 0.15 mid-RSI against SHORT 0.2
mean-reversion + 0.2 upper Bollinger band. -/
def dConf6 : IndicatorDataA :=
  { symbol := "AAPL", price := 102, change_1m := 0.002, rsi := 40, macd_hist := 1,
    volumeOverAvg := 1, sma_20 := 100, bb_upper := 101.5, bb_lower := 0,
    high_5m := 103, low_5m := 0 }

/-- The signal produced by `dConf6` at threshold 0.45. -/
def sigConf6 : Signal :=
  { symbol := "AAPL", direction := .LONG, entry_price := 102, confidence := 0.6,
    strategy := "MOM+" }

/-- Realtime snapshot on which every LONG rule fires. -/
def dLongR : IndicatorDataR :=
  { price := 102, change_1m := 0.01, rsi := 30, macd_hist := 1,
    volumeOverAvg := 3, bb_upper := 1000, bb_lower := 0,
    high_5m := 101, low_5m := 0 }

/-- The signal produced by `dLongR` for `"MSFT"` outside cooldown. -/
def sigLongR : Signal :=
  { symbol := "MSFT", direction := .LONG, entry_price := 102, confidence := 1,
    strategy := "M+RSI<35HH" }

/-- An open SHORT position: entry 50, quantity 100. -/
def posShort : Position :=
  { symbol := "NVDA", direction := .SHORT, entry_price := 50, quantity := 100,
    entry_time := 0, strategy := "LL", stop_loss := 50.2, take_profit := 49.7 }

/-- A realtime-trader state holding `posShort` with an empty
signal-time registry. -/
def sR3 : RealtimeState :=
  { positions := [posShort], pnl_history := [], lastSignalTime := fun _ => none }

/-- An open LONG position on AAPL. -/
def posA1 : Position :=
  { symbol := "AAPL", direction := .LONG, entry_price := 100, quantity := 10,
    entry_time := 80, strategy := "HH", stop_loss := 99.5, take_profit := 100.8 }

/-- An adaptive-trader state holding `posA1`, with every symbol's last
trade stamped at second 90. -/
def sA1 : AdaptiveState :=
  { positions := [posA1], pnl_history := [], lastTradeTime := fun _ => some 90 }

/-- A data provider answering only for AAPL, with `dLong`. -/
def datasW : String → Option IndicatorDataA :=
  fun sym => if sym = "AAPL" then some dLong else none

/-- A signal whose entry price makes the computed quantity zero. -/
def sigExpensive : Signal :=
  { symbol := "COIN", direction := .LONG, entry_price := 100000,
    confidence := 1, strategy := "HH" }

/-! Section: Claim theorems -/

/-- C6.  The classifier's map from averaged volatility to regime is
monotone (a larger average never yields a lower-risk bucket), the
`(confidence_threshold, stop_loss, take_profit)` triple is strictly
increasing component-wise along low < normal < high < extreme, and
`calculate_market_volatility` derives its level and threshold from
exactly these tables on any non-starved sample. -/
theorem regime_monotonicity :
    (∀ v w : ℚ, v ≤ w → riskIndex (classifyVol v) ≤ riskIndex (classifyVol w)) ∧
    (∀ l1 l2 : VolLevel, riskIndex l1 < riskIndex l2 →
      regimeThreshold l1 < regimeThreshold l2 ∧
      regimeStopLoss l1 < regimeStopLoss l2 ∧
      regimeTakeProfit l1 < regimeTakeProfit l2) ∧
    (∀ vols chs : List ℚ, vols ≠ [] →
      (calculateMarketVolatility vols chs).level = classifyVol (vols.sum / vols.length) ∧
      (calculateMarketVolatility vols chs).threshold
        = regimeThreshold (calculateMarketVolatility vols chs).level) := by
  refine ⟨?_, ?_, ?_⟩
  · intro v w hvw
    unfold classifyVol
    split_ifs <;> simp_all [riskIndex] <;> linarith
  · intro l1 l2 h
    cases l1 <;> cases l2 <;>
      norm_num [riskIndex, regimeThreshold, regimeStopLoss, regimeTakeProfit] at h ⊢
  · intro vols chs h
    simp [calculateMarketVolatility, h]

/-- Witness for C6 at averaged volatilities 0.01 and 0.04 and at the
low/extreme regime pair. -/
theorem regime_monotonicity_witness :
    riskIndex (classifyVol 0.01) ≤ riskIndex (classifyVol 0.04) ∧
    regimeThreshold .low < regimeThreshold .extreme ∧
    (calculateMarketVolatility [0.02] [0.01]).level
      = classifyVol (([0.02] : List ℚ).sum / ([0.02] : List ℚ).length) :=
  ⟨regime_monotonicity.1 0.01 0.04 (by norm_num),
   (regime_monotonicity.2.1 .low .extreme (by norm_num [riskIndex])).1,
   (regime_monotonicity.2.2 [0.02] [0.01] (by simp)).1⟩

/-- C4.  The exit ladder checks take-profit, then stop-loss, then the
time ceiling, in that priority order, and on a LONG opened at 100 with
the normal-regime percentages (stop 0.5%, target 0.8%) price 100.85
takes profit, 99.49 stops out, and 100.30 triggers nothing before the
time ceiling. -/
theorem exit_check_priority :
    (∀ (pnl sl tp : ℚ) (elapsed ceiling : ℕ),
      (exitReason pnl sl tp elapsed ceiling = some "TAKE_PROFIT" ↔ tp ≤ pnl) ∧
      (exitReason pnl sl tp elapsed ceiling = some "STOP_LOSS" ↔
        pnl < tp ∧ pnl ≤ -sl) ∧
      (exitReason pnl sl tp elapsed ceiling = some "TIME_STOP" ↔
        pnl < tp ∧ -sl < pnl ∧ ceiling < elapsed) ∧
      (exitReason pnl sl tp elapsed ceiling = none ↔
        pnl < tp ∧ -sl < pnl ∧ elapsed ≤ ceiling)) ∧
    exitReason (pnlPct .LONG 100 100.85) (regimeStopLoss .normal)
      (regimeTakeProfit .normal) 0 900 = some "TAKE_PROFIT" ∧
    exitReason (pnlPct .LONG 100 99.49) (regimeStopLoss .normal)
      (regimeTakeProfit .normal) 0 900 = some "STOP_LOSS" ∧
    exitReason (pnlPct .LONG 100 100.30) (regimeStopLoss .normal)
      (regimeTakeProfit .normal) 0 900 = none := by
  refine ⟨?_, ?_, ?_, ?_⟩
  · intro pnl sl tp elapsed ceiling
    unfold exitReason
    split_ifs with h1 h2 h3 <;>
      refine ⟨?_, ?_, ?_, ?_⟩ <;> simp_all
  · norm_num [exitReason, pnlPct, regimeStopLoss, regimeTakeProfit]
  · norm_num [exitReason, pnlPct, regimeStopLoss, regimeTakeProfit]
  · norm_num [exitReason, pnlPct, regimeStopLoss, regimeTakeProfit]

/-- Helper: both contributions of every adaptive scoring rule are
nonnegative. -/
theorem rulesA_nonneg (d : IndicatorDataA) :
    ∀ r ∈ rulesA d, 0 ≤ r.long ∧ 0 ≤ r.short := by
  intro r hr
  simp only [rulesA, List.mem_cons, List.not_mem_nil, or_false] at hr
  rcases hr with rfl | rfl | rfl | rfl | rfl | rfl | rfl <;>
    · simp only [momentumRuleA, rsiRuleA, macdRuleA, breakoutRuleA,
        volumeRuleA, meanRevRuleA, bbRuleA]
      split_ifs <;> norm_num

/-- Helper: both contributions of every realtime scoring rule are
nonnegative. -/
theorem rulesR_nonneg (d : IndicatorDataR) :
    ∀ r ∈ rulesR d, 0 ≤ r.long ∧ 0 ≤ r.short := by
  intro r hr
  simp only [rulesR, List.mem_cons, List.not_mem_nil, or_false] at hr
  rcases hr with rfl | rfl | rfl | rfl | rfl | rfl <;>
    · simp only [momentumRuleR, rsiRuleR, macdRuleR, breakoutRuleR,
        volumeRuleR, bbRuleR]
      split_ifs <;> norm_num

/-- Helper: a sum of nonnegative rule projections is nonnegative. -/
theorem sum_map_nonneg (rs : List RuleHit) (f : RuleHit → ℚ)
    (h : ∀ r ∈ rs, 0 ≤ f r) : 0 ≤ (rs.map f).sum := by
  induction rs with
  | nil => simp
  | cons r rest ih =>
      simp only [List.map_cons, List.sum_cons]
      have h1 := h r (List.mem_cons_self r rest)
      have h2 := ih fun r' hr' => h r' (List.mem_cons_of_mem _ hr')
      linarith

/-- Helper: accumulated adaptive LONG score is nonnegative. -/
theorem scoresLongA_nonneg (d : IndicatorDataA) : 0 ≤ scoresLongA d :=
  sum_map_nonneg _ _ fun r hr => (rulesA_nonneg d r hr).1

/-- Helper: accumulated adaptive SHORT score is nonnegative. -/
theorem scoresShortA_nonneg (d : IndicatorDataA) : 0 ≤ scoresShortA d :=
  sum_map_nonneg _ _ fun r hr => (rulesA_nonneg d r hr).2

/-- Helper: accumulated realtime LONG score is nonnegative. -/
theorem scoresLongR_nonneg (d : IndicatorDataR) : 0 ≤ scoresLongR d :=
  sum_map_nonneg _ _ fun r hr => (rulesR_nonneg d r hr).1

/-- Helper: accumulated realtime SHORT score is nonnegative. -/
theorem scoresShortR_nonneg (d : IndicatorDataR) : 0 ≤ scoresShortR d :=
  sum_map_nonneg _ _ fun r hr => (rulesR_nonneg d r hr).2

/-- Helper: inversion of a successful adaptive scorer run. -/
theorem analyzeAdaptive_some (d : IndicatorDataA) (t : ℚ) (sig : Signal)
    (h : analyzeAdaptive d t = some sig) :
    scoresLongA d + scoresShortA d ≠ 0 ∧ t ≤ sig.confidence ∧
    sig.symbol = d.symbol ∧ sig.entry_price = d.price ∧
    ((scoresShortA d < scoresLongA d ∧ sig.direction = .LONG ∧
      sig.confidence = scoresLongA d / (scoresLongA d + scoresShortA d)) ∨
     (scoresLongA d ≤ scoresShortA d ∧ sig.direction = .SHORT ∧
      sig.confidence = scoresShortA d / (scoresLongA d + scoresShortA d))) := by
  simp only [analyzeAdaptive] at h
  split_ifs at h with h1 h2 h3 h4 h5 h6 <;>
    first
      | (obtain rfl := (Option.some.inj h).symm
         first
           | exact ⟨h1, not_lt.mp h3, rfl, rfl, Or.inl ⟨h2, rfl, rfl⟩⟩
           | exact ⟨h1, not_lt.mp h5, rfl, rfl, Or.inr ⟨not_lt.mp h2, rfl, rfl⟩⟩)
      | cases h

/-- Helper: inversion of a successful realtime scorer run. -/
theorem analyzeRealtime_some (last : Option ℕ) (now : ℕ) (sym : String)
    (d : IndicatorDataR) (sig : Signal)
    (h : analyzeRealtime last now sym d = some sig) :
    (¬ ∃ t, last = some t ∧ now - t < cooldownSecondsR) ∧ d.price ≠ 0 ∧
    scoresLongR d + scoresShortR d ≠ 0 ∧ minConfidenceR ≤ sig.confidence ∧
    sig.symbol = sym ∧ sig.entry_price = d.price ∧
    ((scoresShortR d < scoresLongR d ∧ sig.direction = .LONG ∧
      sig.confidence = scoresLongR d / (scoresLongR d + scoresShortR d)) ∨
     (scoresLongR d ≤ scoresShortR d ∧ sig.direction = .SHORT ∧
      sig.confidence = scoresShortR d / (scoresLongR d + scoresShortR d))) := by
  simp only [analyzeRealtime] at h
  split_ifs at h with h0 hp h1 h2 h3 h4 <;>
    first
      | (obtain rfl := (Option.some.inj h).symm
         first
           | exact ⟨h0, hp, h1, not_lt.mp h3, rfl, rfl, Or.inl ⟨h2, rfl, rfl⟩⟩
           | exact ⟨h0, hp, h1, not_lt.mp h4, rfl, rfl,
               Or.inr ⟨not_lt.mp h2, rfl, rfl⟩⟩)
      | cases h

/-- Helper: bounds of the winning-share quotient. -/
theorem winning_share_bounds (L S : ℚ) (hL : 0 ≤ L) (hS : 0 ≤ S)
    (hne : L + S ≠ 0) :
    (S ≤ L → 1/2 ≤ L / (L + S) ∧ L / (L + S) ≤ 1) ∧
    (L ≤ S → 1/2 ≤ S / (L + S) ∧ S / (L + S) ≤ 1) := by
  have hpos : 0 < L + S := lt_of_le_of_ne (by linarith) (Ne.symm hne)
  refine ⟨fun hSL => ⟨?_, ?_⟩, fun hLS => ⟨?_, ?_⟩⟩
  · rw [le_div_iff hpos]; linarith
  · rw [div_le_one hpos]; linarith
  · rw [le_div_iff hpos]; linarith
  · rw [div_le_one hpos]; linarith

/-- C2.  Both scorers return no signal when both accumulated scores are
zero, and any signal they do return has confidence within `[0, 1]` and at
least the active confidence threshold. -/
theorem scorer_gating :
    (∀ d t, scoresLongA d = 0 → scoresShortA d = 0 → analyzeAdaptive d t = none) ∧
    (∀ d t sig, analyzeAdaptive d t = some sig →
      0 ≤ sig.confidence ∧ sig.confidence ≤ 1 ∧ t ≤ sig.confidence) ∧
    (∀ last now sym d, scoresLongR d = 0 → scoresShortR d = 0 →
      analyzeRealtime last now sym d = none) ∧
    (∀ last now sym d sig, analyzeRealtime last now sym d = some sig →
      0 ≤ sig.confidence ∧ sig.confidence ≤ 1 ∧
      minConfidenceR ≤ sig.confidence) := by
  refine ⟨?_, ?_, ?_, ?_⟩
  · intro d t hL hS
    simp [analyzeAdaptive, hL, hS]
  · intro d t sig h
    obtain ⟨hne, ht, -, -, hcase⟩ := analyzeAdaptive_some d t sig h
    have hb := winning_share_bounds _ _ (scoresLongA_nonneg d) (scoresShortA_nonneg d) hne
    rcases hcase with ⟨hlt, -, hconf⟩ | ⟨hle, -, hconf⟩
    · obtain ⟨hlo, hhi⟩ := hb.1 (le_of_lt hlt)
      rw [hconf]
      exact ⟨by linarith, hhi, by rw [← hconf]; exact ht⟩
    · obtain ⟨hlo, hhi⟩ := hb.2 hle
      rw [hconf]
      exact ⟨by linarith, hhi, by rw [← hconf]; exact ht⟩
  · intro last now sym d hL hS
    simp [analyzeRealtime, hL, hS]
  · intro last now sym d sig h
    obtain ⟨-, -, hne, ht, -, -, hcase⟩ := analyzeRealtime_some last now sym d sig h
    have hb := winning_share_bounds _ _ (scoresLongR_nonneg d) (scoresShortR_nonneg d) hne
    rcases hcase with ⟨hlt, -, hconf⟩ | ⟨hle, -, hconf⟩
    · obtain ⟨hlo, hhi⟩ := hb.1 (le_of_lt hlt)
      rw [hconf]
      exact ⟨by linarith, hhi, by rw [← hconf]; exact ht⟩
    · obtain ⟨hlo, hhi⟩ := hb.2 hle
      rw [hconf]
      exact ⟨by linarith, hhi, by rw [← hconf]; exact ht⟩

/-- Witness for C2 at the all-LONG snapshots of both scorers. -/
theorem scorer_gating_witness :
    (0 ≤ sigLong.confidence ∧ sigLong.confidence ≤ 1 ∧
      (0.45 : ℚ) ≤ sigLong.confidence) ∧
    (0 ≤ sigLongR.confidence ∧ sigLongR.confidence ≤ 1 ∧
      minConfidenceR ≤ sigLongR.confidence) :=
  ⟨scorer_gating.2.1 dLong 0.45 sigLong (by
      have habs : |(1 : ℚ)/100| = 1/100 := by norm_num
      norm_num [analyzeAdaptive, scoresLongA, scoresShortA, detailsA, rulesA,
        momentumRuleA, rsiRuleA, macdRuleA, breakoutRuleA, volumeRuleA,
        meanRevRuleA, bbRuleA, dLong, sigLong, String.intercalate, habs]
      rfl),
   scorer_gating.2.2.2 none 0 "MSFT" dLongR sigLongR (by
      have habs : |(1 : ℚ)/100| = 1/100 := by norm_num
      norm_num [analyzeRealtime, scoresLongR, scoresShortR, detailsR, rulesR,
        momentumRuleR, rsiRuleR, macdRuleR, breakoutRuleR, volumeRuleR,
        bbRuleR, dLongR, sigLongR, cooldownSecondsR, minConfidenceR, habs]
      exact ⟨fun x hx => Option.noConfusion hx, rfl⟩)⟩

/-- C10.  Every emitted adaptive signal has confidence at least 1/2
(the winning side holds at least half of `LONG + SHORT`), so with any
threshold at or below 1/2 — in particular the low (0.35) and normal
(0.45) table entries — the threshold comparison never rejects a
candidate that reaches it: the scorer returns `none` only for a zero
score total. -/
theorem confidence_floor_half :
    (∀ d t sig, analyzeAdaptive d t = some sig → 1/2 ≤ sig.confidence) ∧
    (∀ d t, t ≤ 1/2 → scoresLongA d + scoresShortA d ≠ 0 →
      (analyzeAdaptive d t).isSome = true) ∧
    regimeThreshold .low = 0.35 ∧ regimeThreshold .normal = 0.45 ∧
    regimeThreshold .low < 1/2 ∧ regimeThreshold .normal < 1/2 := by
  refine ⟨?_, ?_, rfl, rfl, by norm_num [regimeThreshold], by norm_num [regimeThreshold]⟩
  · intro d t sig h
    obtain ⟨hne, -, -, -, hcase⟩ := analyzeAdaptive_some d t sig h
    have hb := winning_share_bounds _ _ (scoresLongA_nonneg d) (scoresShortA_nonneg d) hne
    rcases hcase with ⟨hlt, -, hconf⟩ | ⟨hle, -, hconf⟩
    · rw [hconf]; exact (hb.1 (le_of_lt hlt)).1
    · rw [hconf]; exact (hb.2 hle).1
  · intro d t ht hne
    have hL := scoresLongA_nonneg d
    have hS := scoresShortA_nonneg d
    have hb := winning_share_bounds _ _ hL hS hne
    simp only [analyzeAdaptive]
    rw [if_neg hne]
    split_ifs with h2 h3 h4 h5 h6 <;>
      first
        | rfl
        | exact absurd h3 (not_lt.mpr (le_trans ht (hb.1 (le_of_lt h2)).1))
        | exact absurd h5 (not_lt.mpr (le_trans ht (hb.2 (not_lt.mp h2)).1))

/-- Witness for C10: the tie snapshot has nonzero score total, so at the
low-regime threshold the scorer necessarily emits a signal. -/
theorem confidence_floor_half_witness :
    (analyzeAdaptive dTie (regimeThreshold .low)).isSome = true :=
  confidence_floor_half.2.1 dTie (regimeThreshold .low)
    (by norm_num [regimeThreshold])
    (by norm_num [scoresLongA, scoresShortA, rulesA, momentumRuleA, rsiRuleA,
      macdRuleA, breakoutRuleA, volumeRuleA, meanRevRuleA, bbRuleA, dTie])

/-- Helper: every strategy vote carries a nonnegative confidence and a
nonnegative weight. -/
theorem msVotes_nonneg (d : MSData) :
    ∀ v ∈ msVotes d, 0 ≤ v.1.2 ∧ 0 ≤ v.2 := by
  intro v hv
  simp only [msVotes, List.mem_cons, List.not_mem_nil, or_false] at hv
  rcases hv with rfl | rfl | rfl | rfl | rfl | rfl
  · refine ⟨?_, by norm_num⟩
    show 0 ≤ (ivRankStrategy d).2
    simp only [ivRankStrategy]
    split_ifs with h1 h2
    · exact le_min (by apply div_nonneg <;> linarith) (by norm_num)
    · exact le_min (by apply div_nonneg <;> linarith) (by norm_num)
    · norm_num
  · refine ⟨?_, by norm_num⟩
    show 0 ≤ (vixRevStrategy d).2
    simp only [vixRevStrategy]
    split_ifs <;> norm_num
  · refine ⟨?_, by norm_num⟩
    show 0 ≤ (ivhvStrategy d).2
    simp only [ivhvStrategy]
    split_ifs with h1 h2 h3
    · norm_num
    · exact le_min (by linarith) (by norm_num)
    · exact le_min (by nlinarith) (by norm_num)
    · norm_num
  · refine ⟨?_, by norm_num⟩
    show 0 ≤ (momentumStrategy d).2
    simp only [momentumStrategy]
    split_ifs <;> norm_num
  · refine ⟨?_, by norm_num⟩
    show 0 ≤ (contraStrategy d).2
    simp only [contraStrategy]
    split_ifs <;> norm_num
  · refine ⟨?_, by norm_num⟩
    show 0 ≤ (trendStrategy d).2
    simp only [trendStrategy]
    split_ifs <;> norm_num

/-- Helper: the buy/sell accumulation preserves nonnegativity. -/
theorem msFold_nonneg (votes : List ((String × ℚ) × ℚ)) (acc : ℚ × ℚ)
    (hv : ∀ v ∈ votes, 0 ≤ v.1.2 ∧ 0 ≤ v.2) (ha : 0 ≤ acc.1 ∧ 0 ≤ acc.2) :
    0 ≤ (votes.foldl
      (fun acc v =>
        if v.1.1 = "LONG" then (acc.1 + v.1.2 * v.2, acc.2)
        else if v.1.1 = "SHORT" then (acc.1, acc.2 + v.1.2 * v.2)
        else acc) acc).1 ∧
    0 ≤ (votes.foldl
      (fun acc v =>
        if v.1.1 = "LONG" then (acc.1 + v.1.2 * v.2, acc.2)
        else if v.1.1 = "SHORT" then (acc.1, acc.2 + v.1.2 * v.2)
        else acc) acc).2 := by
  induction votes generalizing acc with
  | nil => simpa using ha
  | cons v rest ih =>
      simp only [List.foldl_cons]
      apply ih
      · intro v' hv'
        exact hv v' (List.mem_cons_of_mem _ hv')
      · have h0 := hv v (List.mem_cons_self v rest)
        have hm : 0 ≤ v.1.2 * v.2 := mul_nonneg h0.1 h0.2
        split_ifs <;> refine ⟨?_, ?_⟩ <;> dsimp only <;> linarith [ha.1, ha.2, hm]

/-- Helper: both accumulated multi-strategy scores are nonnegative. -/
theorem msScores_nonneg (d : MSData) :
    0 ≤ (msScores d).1 ∧ 0 ≤ (msScores d).2 :=
  msFold_nonneg (msVotes d) (0, 0) (msVotes_nonneg d) (by norm_num)

/-- C9 (amended).  The adaptive scorer picks LONG only when LONG strictly
exceeds SHORT and otherwise SHORT, so a tied pair can produce a SHORT
signal whose raw score merely equals the opposing side when the threshold
is ≤ 0.5; every emitted LONG strictly beats SHORT, the realtime scorer's
0.55 floor forces strict dominance in both directions, and the
multi-strategy combiner picks LONG only on `buy > sell × 1.2` and SHORT
only on `sell > buy × 1.2` (else NEUTRAL), strictly favouring the larger
score. -/
theorem score_margin_resolution :
    (∀ d t sig, analyzeAdaptive d t = some sig →
      (sig.direction = .LONG → scoresShortA d < scoresLongA d) ∧
      (sig.direction = .SHORT → scoresLongA d ≤ scoresShortA d)) ∧
    (∀ last now sym d sig, analyzeRealtime last now sym d = some sig →
      (sig.direction = .LONG → scoresShortR d < scoresLongR d) ∧
      (sig.direction = .SHORT → scoresLongR d < scoresShortR d)) ∧
    (∀ buyScore sellScore : ℚ, 0 ≤ buyScore → 0 ≤ sellScore →
      ((msDecision buyScore sellScore).1 = "LONG" ↔
        buyScore > sellScore * 1.2) ∧
      ((msDecision buyScore sellScore).1 = "SHORT" ↔
        ¬ buyScore > sellScore * 1.2 ∧ sellScore > buyScore * 1.2) ∧
      ((msDecision buyScore sellScore).1 = "LONG" → sellScore < buyScore) ∧
      ((msDecision buyScore sellScore).1 = "SHORT" → buyScore < sellScore)) ∧
    (∀ d : MSData, 0 ≤ (msScores d).1 ∧ 0 ≤ (msScores d).2) := by
  refine ⟨?_, ?_, ?_, msScores_nonneg⟩
  · intro d t sig h
    obtain ⟨-, -, -, -, hcase⟩ := analyzeAdaptive_some d t sig h
    rcases hcase with ⟨hlt, hdir, -⟩ | ⟨hle, hdir, -⟩
    · exact ⟨fun _ => hlt, fun hd => Direction.noConfusion (hdir.symm.trans hd)⟩
    · exact ⟨fun hd => Direction.noConfusion (hdir.symm.trans hd), fun _ => hle⟩
  · intro last now sym d sig h
    obtain ⟨-, -, hne, ht, -, -, hcase⟩ := analyzeRealtime_some last now sym d sig h
    rcases hcase with ⟨hlt, hdir, -⟩ | ⟨hle, hdir, hconf⟩
    · exact ⟨fun _ => hlt, fun hd => Direction.noConfusion (hdir.symm.trans hd)⟩
    · refine ⟨fun hd => Direction.noConfusion (hdir.symm.trans hd), fun _ => ?_⟩
      rcases lt_or_eq_of_le hle with hlt | heq
      · exact hlt
      · exfalso
        have hS0 : scoresShortR d ≠ 0 := by
          intro h0
          exact hne (by rw [heq, h0]; norm_num)
        have hL0 : scoresLongR d ≠ 0 := by rw [heq]; exact hS0
        have h2L : scoresLongR d + scoresLongR d ≠ 0 := by
          intro hz
          exact hL0 (by linarith)
        have hhalf : scoresShortR d / (scoresLongR d + scoresShortR d) = 1/2 := by
          rw [← heq, div_eq_iff h2L]
          ring
        rw [hconf, hhalf] at ht
        norm_num [minConfidenceR] at ht
  · intro buy sell hb hs
    unfold msDecision
    split_ifs with h1 h2 <;>
      refine ⟨?_, ?_, ?_, ?_⟩ <;> simp_all <;> linarith

/-- Witness for C9 at the all-LONG snapshot and a trivial combiner pair. -/
theorem score_margin_resolution_witness :
    scoresShortA dLong < scoresLongA dLong ∧ (msDecision 1 0).1 = "LONG" :=
  ⟨(score_margin_resolution.1 dLong 0.45 sigLong (by
      have habs : |(1 : ℚ)/100| = 1/100 := by norm_num
      norm_num [analyzeAdaptive, scoresLongA, scoresShortA, detailsA, rulesA,
        momentumRuleA, rsiRuleA, macdRuleA, breakoutRuleA, volumeRuleA,
        meanRevRuleA, bbRuleA, dLong, sigLong, String.intercalate, habs]
      rfl)).1 rfl,
   ((score_margin_resolution.2.2.1 1 0 (by norm_num) (by norm_num)).1).mpr
     (by norm_num)⟩

/-- C9 counterexample: at the tie snapshot `dTie` (LONG = SHORT = 0.35)
the adaptive scorer, under the low-regime threshold, emits a SHORT signal
although SHORT's raw score is not strictly greater than LONG's. -/
theorem tie_emits_short_signal :
    scoresLongA dTie = scoresShortA dTie ∧
    scoresLongA dTie ≠ 0 ∧
    analyzeAdaptive dTie (regimeThreshold .low) = some sigTie ∧
    sigTie.direction = .SHORT ∧
    ¬ scoresLongA dTie < scoresShortA dTie := by
  refine ⟨?_, ?_, ?_, rfl, ?_⟩
  · norm_num [scoresLongA, scoresShortA, rulesA, momentumRuleA, rsiRuleA,
      macdRuleA, breakoutRuleA, volumeRuleA, meanRevRuleA, bbRuleA, dTie]
  · norm_num [scoresLongA, rulesA, momentumRuleA, rsiRuleA, macdRuleA,
      breakoutRuleA, volumeRuleA, meanRevRuleA, bbRuleA, dTie]
  · norm_num [analyzeAdaptive, scoresLongA, scoresShortA, detailsA, rulesA,
      momentumRuleA, rsiRuleA, macdRuleA, breakoutRuleA, volumeRuleA,
      meanRevRuleA, bbRuleA, dTie, sigTie, regimeThreshold, String.intercalate]
    rfl
  · norm_num [scoresLongA, scoresShortA, rulesA, momentumRuleA, rsiRuleA,
      macdRuleA, breakoutRuleA, volumeRuleA, meanRevRuleA, bbRuleA, dTie]

/-- Helper: every position produced by the open loop either pre-existed or
is `mkPositionA` of one of the consumed signals with quantity at least 1. -/
theorem openLoop_mem_positions (sigs : List Signal) (s : AdaptiveState)
    (now : ℕ) (slPct tpPct : ℚ) (p : Position)
    (hp : p ∈ (openLoop s sigs now slPct tpPct).positions) :
    p ∈ s.positions ∨ ∃ sig ∈ sigs, p = mkPositionA sig now slPct tpPct ∧
      1 ≤ quantityA sig.entry_price := by
  induction sigs generalizing s with
  | nil => exact Or.inl hp
  | cons sig rest ih =>
    unfold openLoop at hp
    split_ifs at hp with h1 h2
    · exact Or.inl hp
    · rcases ih _ hp with h | ⟨sig', hmem, heq⟩
      · exact Or.inl h
      · exact Or.inr ⟨sig', List.mem_cons_of_mem _ hmem, heq⟩
    · rcases ih _ hp with h | ⟨sig', hmem, heq⟩
      · simp only [openOneA, List.mem_append, List.mem_singleton] at h
        rcases h with h | h
        · exact Or.inl h
        · exact Or.inr ⟨sig, List.mem_cons_self sig rest, h, by omega⟩
      · exact Or.inr ⟨sig', List.mem_cons_of_mem _ hmem, heq⟩

/-- C3 (amended).  Closing a position appends exactly one `ClosedTrade`
whose P&L is `(exit − entry) × qty` for LONG and `(entry − exit) × qty`
for SHORT (so SHORT entry 50, exit 49, qty 100 realizes 100), and removes
every position with that symbol; the adaptive trader additionally resets
the symbol's cooldown stamp to the close time, while the realtime
trader's close leaves its cooldown registry untouched. -/
theorem close_position_effects :
    (∀ s pos reason exitPrice now,
      (closePositionA s pos reason exitPrice now).pnl_history
        = s.pnl_history ++ [mkClosedTrade pos reason exitPrice now] ∧
      (∀ p, p ∈ (closePositionA s pos reason exitPrice now).positions ↔
        p ∈ s.positions ∧ p.symbol ≠ pos.symbol) ∧
      (closePositionA s pos reason exitPrice now).lastTradeTime pos.symbol
        = some now) ∧
    (∀ pos reason exitPrice now, pos.direction = .LONG →
      (mkClosedTrade pos reason exitPrice now).pnl
        = (exitPrice - pos.entry_price) * (pos.quantity : ℚ)) ∧
    (∀ pos reason exitPrice now, pos.direction = .SHORT →
      (mkClosedTrade pos reason exitPrice now).pnl
        = (pos.entry_price - exitPrice) * (pos.quantity : ℚ)) ∧
    (∀ s pos reason exitPrice now,
      (closePositionR s pos reason exitPrice now).pnl_history
        = s.pnl_history ++ [mkClosedTrade pos reason exitPrice now] ∧
      (∀ p, p ∈ (closePositionR s pos reason exitPrice now).positions ↔
        p ∈ s.positions ∧ p.symbol ≠ pos.symbol) ∧
      (closePositionR s pos reason exitPrice now).lastSignalTime
        = s.lastSignalTime) ∧
    (mkClosedTrade posShort "TAKE_PROFIT" 49 30).pnl = ((50 : ℚ) - 49) * 100 := by
  refine ⟨?_, ?_, ?_, ?_, ?_⟩
  · intro s pos reason exitPrice now
    refine ⟨rfl, ?_, by simp [closePositionA]⟩
    intro p
    simp [closePositionA, List.mem_filter]
  · intro pos reason exitPrice now h
    simp [mkClosedTrade, h]
  · intro pos reason exitPrice now h
    simp [mkClosedTrade, h]
  · intro s pos reason exitPrice now
    refine ⟨rfl, ?_, rfl⟩
    intro p
    simp [closePositionR, List.mem_filter]
  · norm_num [mkClosedTrade, posShort]
    decide

/-- Witness for C3 at the concrete LONG close of `posA1` in state `sA1`. -/
theorem close_position_effects_witness :
    (mkClosedTrade posA1 "STOP_LOSS" 99.5 100).pnl
      = ((99.5 : ℚ) - posA1.entry_price) * (posA1.quantity : ℚ) ∧
    (closePositionA sA1 posA1 "STOP_LOSS" 99.5 100).lastTradeTime posA1.symbol
      = some 100 :=
  ⟨close_position_effects.2.1 posA1 "STOP_LOSS" 99.5 100 rfl,
   (close_position_effects.1 sA1 posA1 "STOP_LOSS" 99.5 100).2.2⟩

/-- C3 counterexample: the claim also asserts the cooldown reset for
`RealtimeTrader.close_position`, but after closing `posShort` at second
100 the realtime registry still has no entry for the symbol — it was not
reset to the close time. -/
theorem close_position_realtime_no_cooldown_reset :
    (closePositionR sR3 posShort "TIME_STOP" 49 100).lastSignalTime "NVDA" = none ∧
    (closePositionR sR3 posShort "TIME_STOP" 49 100).lastSignalTime "NVDA"
      ≠ some 100 := by
  constructor
  · rfl
  · simp [closePositionR, sR3]

/-- C7.  Code bug: on sample starvation `calculate_market_volatility`
returns the normal level and threshold but, unlike the non-starved path,
omits the `'stop_loss'`/`'take_profit'` entries, so the `check_positions`
dict read fails with `KeyError` on the next cycle with an open position
instead of proceeding on normal-regime defaults as the spec states. -/
theorem classifier_starvation_keyerror :
    (calculateMarketVolatility [] []).level = .normal ∧
    (calculateMarketVolatility [] []).threshold = 0.45 ∧
    (calculateMarketVolatility [] []).stop_loss = none ∧
    (calculateMarketVolatility [] []).take_profit = none ∧
    checkPositionsA (calculateMarketVolatility [] []) [posA1]
      (fun _ => some 100) 100 = .error "KeyError: stop_loss" ∧
    (calculateMarketVolatility [0.02] [0.01]).stop_loss
      = some (regimeStopLoss .normal) ∧
    (calculateMarketVolatility [0.02] [0.01]).take_profit
      = some (regimeTakeProfit .normal) := by
  refine ⟨rfl, rfl, rfl, rfl, rfl, ?_, ?_⟩ <;>
    norm_num [calculateMarketVolatility, classifyVol]

/-- C5 (amended).  Every position opened by the adaptive or realtime
trader has quantity `int(10000 × position_size / entry_price)` — the
signal's confidence plays no role there — and only the multi-strategy
variant sizes by `int(1000000 × 0.02 × confidence / price)`; in every
variant a computed quantity below 1 skips the open silently. -/
theorem open_quantity_formula :
    (∀ s s', AdaptiveStep s s' → ∀ p, p ∈ s'.positions → p ∉ s.positions →
      p.quantity = pyInt (10000 * positionSizeA / p.entry_price) ∧
      1 ≤ p.quantity) ∧
    (∀ s sig rest now slPct tpPct, s.positions.length < maxPositionsA →
      quantityA sig.entry_price < 1 →
      openLoop s (sig :: rest) now slPct tpPct = openLoop s rest now slPct tpPct) ∧
    (∀ s s', RealtimeStep s s' → ∀ p, p ∈ s'.positions → p ∉ s.positions →
      p.quantity = pyInt (10000 * positionSizeR / p.entry_price) ∧
      1 ≤ p.quantity) ∧
    (∀ held sigs tr, tr ∈ multiExecute held sigs →
      tr.quantity = multiQuantity tr.price tr.confidence ∧ 1 ≤ tr.quantity) := by
  refine ⟨?_, ?_, ?_, ?_⟩
  · intro s s' hstep p hp hnot
    cases hstep with
    | scan now datas threshold slPct tpPct hsym =>
        rcases openLoop_mem_positions _ _ _ _ _ _ hp with h | ⟨sig, _, heq, hq⟩
        · exact absurd h hnot
        · subst heq
          exact ⟨rfl, hq⟩
    | close pos reason exitPrice now hmem =>
        exact absurd ((List.mem_filter.mp hp).1) hnot
  · intro s sig rest now slPct tpPct hcap hq
    conv_lhs => unfold openLoop
    rw [if_neg (by omega), if_pos hq]
  · intro s s' hstep p hp hnot
    cases hstep with
    | openSig now d sig hana hpos hcap hqty =>
        simp only [List.mem_append, List.mem_singleton] at hp
        rcases hp with h | h
        · exact absurd h hnot
        · subst h
          exact ⟨rfl, hqty⟩
    | signalOnly now d symbol sig hana => exact absurd hp hnot
    | close pos reason exitPrice now hmem =>
        exact absurd ((List.mem_filter.mp hp).1) hnot
  · intro held sigs tr htr
    induction sigs with
    | nil => cases htr
    | cons sig rest ih =>
        unfold multiExecute at htr
        split_ifs at htr with h1 h2 h3 h4 h5 h6
        · exact ih htr
        · exact ih htr
        · exact ih htr
        · exact ih htr
        · rcases List.mem_cons.mp htr with h | h
          · subst h
            refine ⟨rfl, ?_⟩
            show (1 : ℤ) ≤ multiQuantity sig.price sig.confidence
            omega
          · exact ih h
        · rcases List.mem_cons.mp htr with h | h
          · subst h
            refine ⟨rfl, ?_⟩
            show (1 : ℤ) ≤ multiQuantity sig.price sig.confidence
            omega
          · exact ih h
        · exact ih htr

/-- Witness for C5: a signal priced at 100000 computes quantity 0 and is
skipped by the open loop without error. -/
theorem open_quantity_formula_witness :
    openLoop initA [sigExpensive] 0 0.005 0.008
      = openLoop initA [] 0 0.005 0.008 :=
  open_quantity_formula.2.1 initA sigExpensive [] 0 0.005 0.008
    (by norm_num [initA, maxPositionsA])
    (by
      norm_num [quantityA, pyInt, positionSizeA, sigExpensive]
      rw [Rat.floor_def']
      norm_num)

/-- C5 counterexample: the accepted signal `sigConf6` (confidence 0.6,
entry 102) opens quantity `int(1000/102) = 9`, not the claimed
`floor(10000 × 0.1 × 0.6 / 102) = 5`. -/
theorem open_quantity_ignores_confidence :
    analyzeAdaptive dConf6 (regimeThreshold .normal) = some sigConf6 ∧
    (openLoop initA [sigConf6] 0 0.005 0.008).positions.map Position.quantity
      = [9] ∧
    pyInt (10000 * positionSizeA * sigConf6.confidence / sigConf6.entry_price)
      = 5 ∧
    ([9] : List ℤ) ≠ [5] := by
  refine ⟨?_, ?_, ?_, by decide⟩
  · norm_num [analyzeAdaptive, scoresLongA, scoresShortA, detailsA, rulesA,
      momentumRuleA, rsiRuleA, macdRuleA, breakoutRuleA, volumeRuleA,
      meanRevRuleA, bbRuleA, dConf6, sigConf6, regimeThreshold,
      String.intercalate]
    rfl
  · have h9 : quantityA 102 = 9 := by
      norm_num [quantityA, pyInt, positionSizeA]
      rw [Rat.floor_def']
      norm_num
    norm_num [openLoop, openOneA, initA, maxPositionsA, mkPositionA, sigConf6, h9]
  · norm_num [pyInt, positionSizeA, sigConf6]
    rw [Rat.floor_def']
    norm_num

/-- Helper: unfolding of a positive `should_trade` verdict. -/
theorem shouldTrade_true_iff (s : AdaptiveState) (now : ℕ) (symbol : String) :
    shouldTrade s now symbol = true ↔
      inCooldownA s now symbol = false ∧
      (∀ p ∈ s.positions, p.symbol ≠ symbol) ∧
      s.positions.length < maxPositionsA := by
  unfold shouldTrade
  split_ifs with h1 h2 h3
  · simp [h1]
  · simp only [Bool.false_eq_true, false_iff]
    intro hc
    rw [List.any_eq_true] at h2
    obtain ⟨p, hp, hbeq⟩ := h2
    exact hc.2.1 p hp (by simpa using hbeq)
  · simp only [Bool.false_eq_true, false_iff]
    intro hc
    exact absurd hc.2.2 (by omega)
  · constructor
    · intro _
      refine ⟨by simpa using h1, ?_, by omega⟩
      intro p hp hpe
      exact h2 (List.any_eq_true.mpr ⟨p, hp, by simpa using hpe⟩)
    · intro _
      rfl

/-- Helper: filter-mapping a duplicate-free symbol list through a
symbol-preserving producer yields signals with duplicate-free symbols. -/
theorem filterMap_symbols_nodup (l : List String) (f : String → Option Signal)
    (hl : l.Nodup) (hf : ∀ sym sig, f sym = some sig → sig.symbol = sym) :
    ((l.filterMap f).map Signal.symbol).Nodup := by
  induction l with
  | nil => simp
  | cons x xs ih =>
      rw [List.filterMap_cons]
      have hx : x ∉ xs := (List.nodup_cons.mp hl).1
      have hxs := (List.nodup_cons.mp hl).2
      cases hfx : f x with
      | none => exact ih hxs
      | some sig =>
          rw [List.map_cons]
          refine List.nodup_cons.mpr ⟨?_, ih hxs⟩
          intro hmem
          rw [hf x sig hfx] at hmem
          obtain ⟨sig', hsig', heq⟩ := List.mem_map.mp hmem
          obtain ⟨y, hy, hfy⟩ := List.mem_filterMap.mp hsig'
          rw [hf y sig' hfy] at heq
          exact hx (heq ▸ hy)

/-- Helper: every signal of a scan passed `should_trade` for its own
symbol. -/
theorem runScan_mem (s : AdaptiveState) (now : ℕ)
    (datas : String → Option IndicatorDataA) (threshold : ℚ)
    (hsym : ∀ sym d, datas sym = some d → d.symbol = sym)
    (sig : Signal) (h : sig ∈ runScan s now datas threshold) :
    shouldTrade s now sig.symbol = true := by
  obtain ⟨sym, hmem, hf⟩ := List.mem_filterMap.mp h
  by_cases hst : shouldTrade s now sym = true
  · rw [if_pos hst] at hf
    obtain ⟨d, hd, hana⟩ := Option.bind_eq_some.mp hf
    rw [(analyzeAdaptive_some d threshold sig hana).2.2.1, hsym sym d hd]
    exact hst
  · rw [if_neg hst] at hf
    cases hf

/-- Helper: a scan emits at most one signal per symbol. -/
theorem runScan_nodup (s : AdaptiveState) (now : ℕ)
    (datas : String → Option IndicatorDataA) (threshold : ℚ)
    (hsym : ∀ sym d, datas sym = some d → d.symbol = sym) :
    ((runScan s now datas threshold).map Signal.symbol).Nodup := by
  apply filterMap_symbols_nodup
  · decide
  · intro sym sig hf
    by_cases hst : shouldTrade s now sym = true
    · rw [if_pos hst] at hf
      obtain ⟨d, hd, hana⟩ := Option.bind_eq_some.mp hf
      rw [(analyzeAdaptive_some d threshold sig hana).2.2.1, hsym sym d hd]
    · rw [if_neg hst] at hf
      cases hf

/-- Helper: the open loop preserves symbol uniqueness when fed signals
with fresh, pairwise-distinct symbols. -/
theorem openLoop_nodup (sigs : List Signal) (s : AdaptiveState) (now : ℕ)
    (slPct tpPct : ℚ)
    (hs : (s.positions.map Position.symbol).Nodup)
    (hdisj : ∀ sig ∈ sigs, ∀ p ∈ s.positions, p.symbol ≠ sig.symbol)
    (hsigs : (sigs.map Signal.symbol).Nodup) :
    ((openLoop s sigs now slPct tpPct).positions.map Position.symbol).Nodup := by
  induction sigs generalizing s with
  | nil => exact hs
  | cons sig rest ih =>
      rw [List.map_cons, List.nodup_cons] at hsigs
      obtain ⟨hnotin, hrest⟩ := hsigs
      unfold openLoop
      split_ifs with h1 h2
      · exact hs
      · exact ih s hs
          (fun sig' h' => hdisj sig' (List.mem_cons_of_mem _ h')) hrest
      · apply ih
        · simp only [openOneA, List.map_append, List.map_cons, List.map_nil]
          rw [List.nodup_append]
          refine ⟨hs, by simp, ?_⟩
          intro a ha hb
          simp only [mkPositionA, List.mem_singleton] at hb
          subst hb
          obtain ⟨p, hp, hpa⟩ := List.mem_map.mp ha
          exact hdisj sig (List.mem_cons_self sig rest) p hp hpa
        · intro sig' h' p hp
          simp only [openOneA, List.mem_append, List.mem_singleton] at hp
          rcases hp with hp | rfl
          · exact hdisj sig' (List.mem_cons_of_mem _ h') p hp
          · show sig.symbol ≠ sig'.symbol
            intro heq
            exact hnotin (heq ▸ List.mem_map_of_mem Signal.symbol h')
        · exact hrest

/-- C1.  In every reachable state of either trader the active-position
list carries at most one open position per symbol: the mapped symbol list
is duplicate-free. -/
theorem position_symbol_uniqueness :
    (∀ s, ReachableA s → (s.positions.map Position.symbol).Nodup) ∧
    (∀ s, ReachableR s → (s.positions.map Position.symbol).Nodup) := by
  constructor
  · intro s h
    induction h with
    | refl => simp [initA]
    | tail hprev hstep ih =>
        cases hstep with
        | scan now datas threshold slPct tpPct hsym =>
            refine openLoop_nodup _ _ _ _ _ ih ?_ (runScan_nodup _ _ _ _ hsym)
            intro sig hsig p hp
            have hst := runScan_mem _ _ _ _ hsym sig hsig
            exact ((shouldTrade_true_iff _ _ _).mp hst).2.1 p hp
        | close pos reason exitPrice now hmem =>
            simp only [closePositionA]
            exact List.Nodup.sublist
              (List.Sublist.map _ (List.filter_sublist _)) ih
  · intro s h
    induction h with
    | refl => simp [initR]
    | tail hprev hstep ih =>
        cases hstep with
        | openSig now d sig hana hpos hcap hqty =>
            simp only [List.map_append, List.map_cons, List.map_nil]
            rw [List.nodup_append]
            refine ⟨ih, by simp, ?_⟩
            intro a ha hb
            simp only [mkPositionR, List.mem_singleton] at hb
            subst hb
            obtain ⟨p, hp, hpa⟩ := List.mem_map.mp ha
            simp only [List.any_eq_false, beq_iff_eq] at hpos
            exact hpos p hp hpa
        | signalOnly now d symbol sig hana => exact ih
        | close pos reason exitPrice now hmem =>
            simp only [closePositionR]
            exact List.Nodup.sublist
              (List.Sublist.map _ (List.filter_sublist _)) ih

/-- Witness for C1 after one scan step of the adaptive trader and at the
fresh realtime trader. -/
theorem position_symbol_uniqueness_witness :
    ((openLoop initA (runScan initA 0 datasW 0.45) 0 0.005 0.008).positions.map
      Position.symbol).Nodup ∧
    (initR.positions.map Position.symbol).Nodup :=
  ⟨position_symbol_uniqueness.1 _
    (Relation.ReflTransGen.single
      (AdaptiveStep.scan initA 0 datasW 0.45 0.005 0.008 (by
        intro sym d h
        unfold datasW at h
        split_ifs at h with hx
        cases h
        rw [hx]
        rfl))),
   position_symbol_uniqueness.2 initR Relation.ReflTransGen.refl⟩

/-- C8.  A symbol inside its cooldown window or with an active open
position never gains a new position: the adaptive scan-and-open cycle
leaves its position set for that symbol unchanged, the realtime analyzer
refuses to score a symbol inside cooldown at all, and every realtime open
is guarded against symbols already held. -/
theorem cooldown_position_suppression :
    (∀ s now datas threshold slPct tpPct sym,
      (∀ sy d, datas sy = some d → d.symbol = sy) →
      (inCooldownA s now sym = true ∨ ∃ p ∈ s.positions, p.symbol = sym) →
      ∀ p, p ∈ (openLoop s (runScan s now datas threshold) now slPct tpPct).positions →
        p.symbol = sym → p ∈ s.positions) ∧
    (∀ (t now : ℕ) sym (d : IndicatorDataR), now - t < cooldownSecondsR →
      analyzeRealtime (some t) now sym d = none) ∧
    (∀ s s', RealtimeStep s s' → ∀ p, p ∈ s'.positions → p ∉ s.positions →
      ∀ q ∈ s.positions, q.symbol ≠ p.symbol) := by
  refine ⟨?_, ?_, ?_⟩
  · intro s now datas threshold slPct tpPct sym hsym hblock p hp hpsym
    rcases openLoop_mem_positions _ _ _ _ _ _ hp with h | ⟨sig, hsig, heq, -⟩
    · exact h
    · exfalso
      have hst := runScan_mem _ _ _ _ hsym sig hsig
      obtain ⟨hcool, hnopos, -⟩ := (shouldTrade_true_iff _ _ _).mp hst
      have hss : sig.symbol = sym := by
        rw [heq] at hpsym
        exact hpsym
      rcases hblock with hc | ⟨q, hq, hqs⟩
      · rw [hss] at hcool
        exact Bool.noConfusion (hcool.symm.trans hc)
      · exact hnopos q hq (hqs.trans hss.symm)
  · intro t now sym d hcd
    unfold analyzeRealtime
    rw [if_pos ⟨t, rfl, hcd⟩]
  · intro s s' hstep p hp hnot q hq
    cases hstep with
    | openSig now d sig hana hpos hcap hqty =>
        simp only [List.mem_append, List.mem_singleton] at hp
        rcases hp with h | rfl
        · exact absurd h hnot
        · show q.symbol ≠ sig.symbol
          simp only [List.any_eq_false, beq_iff_eq] at hpos
          exact hpos q hq
    | signalOnly now d symbol sig hana => exact absurd hp hnot
    | close pos reason exitPrice now hmem =>
        exact absurd ((List.mem_filter.mp hp).1) hnot

/-- Witness for C8: a state whose every symbol is both inside cooldown
and holding a position opens nothing in a scan cycle. -/
theorem cooldown_position_suppression_witness :
    posA1 ∈ sA1.positions :=
  cooldown_position_suppression.1 sA1 100 (fun _ => none) 0.45 0.005 0.008
    "AAPL"
    (fun _ d h => Option.noConfusion h)
    (Or.inl rfl)
    posA1
    (by
      have hscan : runScan sA1 100 (fun _ => none) 0.45 = [] := by
        simp [runScan]
      rw [hscan]
      exact List.mem_cons_self _ _)
    rfl

end VolSys
